import Mathlib

/-!
Shallow embedding of the Block abstraction and helper tools of the
editor-custom repository (src/src/components/block/index.ts,
src/src/components/block-tunes/*, src/src/components/inline-tools/*),
together with theorems settling the frozen claims about it.
-/

namespace EditorCustom

/-- A small model of the JavaScript values stored as tool, tune and toolbox
data.  Only scalars are needed by the claims under study. -/
inductive JSVal where
  | num (n : Int)
  | str (s : String)
  | boolean (b : Bool)
  | null
deriving DecidableEq, Repr

/-- JavaScript truthiness of a `JSVal` (used by `blockData[propName] && ...`
in `getActiveToolboxEntry`).  `0`, the empty string, `false` and `null`
are falsy. -/
def JSVal.truthy : JSVal → Bool
  | .num n => n != 0
  | .str s => s != ""
  | .boolean b => b
  | .null => false

/-- Modelled from the spec: `_.equals` of the utils module (not included
under src/) performs a deep equality comparison; on our scalar values this
is structural equality. -/
def jsEquals (a b : JSVal) : Bool :=
  a = b

/-- A JavaScript object holding per-tune data, modelled as an association
list keyed by tune name.  Keys are unique in any object produced by the
model. -/
abbrev TunesBag := List (String × JSVal)

/-- Property read `bag[key]` on a JavaScript object. -/
def bagGet : TunesBag → String → Option JSVal
  | [], _ => none
  | (k, v) :: rest, key => if k = key then some v else bagGet rest key

/-- Property write `bag[key] = v` on a JavaScript object: overwrites the
existing entry in place or appends a new one. -/
def bagSet : TunesBag → String → JSVal → TunesBag
  | [], key, v => [(key, v)]
  | (k, w) :: rest, key, v =>
      if k = key then (k, v) :: rest else (k, w) :: bagSet rest key v

/-- Membership test on a list of tune names (models `Map.has`). -/
def nameMem (n : String) : List String → Bool
  | [] => false
  | x :: rest => if x = n then true else nameMem n rest

/-- A tune registered for the tool: its name and whether it is an
editor-internal (default) tune.  Mirrors `tune.isInternal` used by
`composeTunes`. -/
structure TuneDecl where
  name : String
  isInternal : Bool
deriving DecidableEq, Repr

/-- The part of the Block state that the tune claims are about:
the keys of `tunesInstances` (user tunes) and `defaultTunesInstances`
(internal tunes) in registration order, and the persistent
`unavailableTunesData` side table. -/
structure BlockTunesState where
  userTunes : List String
  defaultTunes : List String
  unavailableTunesData : TunesBag
deriving DecidableEq, Repr

/-- `composeTunes` (block/index.ts lines 930-945): every registered tune is
instantiated into `tunesInstances` or `defaultTunesInstances` depending on
`isInternal`; afterwards every `tunesData` entry whose name is not a key of
`tunesInstances` is stored into `unavailableTunesData`. -/
def composeTunes (tunes : List TuneDecl) (tunesData : TunesBag) : BlockTunesState :=
  let userNames := (tunes.filter (fun t => !t.isInternal)).map TuneDecl.name
  let defaultNames := (tunes.filter (fun t => t.isInternal)).map TuneDecl.name
  { userTunes := userNames
    defaultTunes := defaultNames
    unavailableTunesData := tunesData.filter (fun e => !(nameMem e.1 userNames)) }

/-- Outcome of one invocation of a tune instance method `save`:
`none` models a tune without a `save` function (the `_.isFunction` check),
`some (.ok v)` a successful save, `some (.error e)` a thrown exception. -/
abbrev TuneSaveBehavior := String → Option (Except String JSVal)

/-- The `forEach` over `tunesInstances` and `defaultTunesInstances` inside
`Block.save` (block/index.ts lines 657-669): starting from the object
`this.unavailableTunesData` (aliased as `tunesData`), each tune that has a
`save` function writes its result under its name; a thrown error is caught
(and logged) so that nothing is written for that tune. -/
def saveTunesBag (names : List String) (behavior : TuneSaveBehavior) (bag : TunesBag) : TunesBag :=
  match names with
  | [] => bag
  | n :: rest =>
      match behavior n with
      | none => saveTunesBag rest behavior bag
      | some (Except.ok v) => saveTunesBag rest behavior (bagSet bag n v)
      | some (Except.error _) => saveTunesBag rest behavior bag

/-- The record resolved by `Block.save` on success
(`{id, tool, data, tunes, time}`). -/
structure SavedDataM where
  id : String
  tool : String
  data : JSVal
  tunes : TunesBag
  time : Int
deriving DecidableEq, Repr

/-- The trailing promise chain of `Block.save`:
`Promise.resolve(extractedBlock).then(mk record).catch(log; undefined)`.
The `then` callback only builds the record and cannot throw, so the `catch`
arm can only fire for a rejected argument. -/
def savePromiseChain : Except String SavedDataM → Except String (Option SavedDataM)
  | Except.ok r => Except.ok (some r)
  | Except.error _ => Except.ok none

/-- `Block.save` (block/index.ts lines 653-693).  `toolResult` is the
settled outcome of `this.toolInstance.save(this.pluginsContent)`; because
that promise is `await`ed on the very first line, a rejection propagates
out of `save` before the tunes `forEach` runs and before the
`catch`-bearing chain is even built.  On success the tunes bag is
accumulated into the persistent `unavailableTunesData` object itself
(JavaScript aliasing), the record is built, and the chain resolves it.
`elapsed` models the measured wall-clock duration.  Returns the settled
result of the promise together with the updated Block state. -/
def save (st : BlockTunesState) (blockId toolName : String)
    (toolResult : Except String JSVal) (behavior : TuneSaveBehavior)
    (elapsed : Int) : Except String (Option SavedDataM) × BlockTunesState :=
  match toolResult with
  | Except.error e => (Except.error e, st)
  | Except.ok extracted =>
      let bag := saveTunesBag (st.userTunes ++ st.defaultTunes) behavior st.unavailableTunesData
      (savePromiseChain (Except.ok
        { id := blockId
          tool := toolName
          data := extracted
          tunes := bag
          time := elapsed }),
       { st with unavailableTunesData := bag })

/-- Projection: the tunes bag of a settled `save` result, when it resolved
with a record. -/
def savedTunesOf : Except String (Option SavedDataM) → Option TunesBag
  | Except.ok (some s) => some s.tunes
  | _ => none

/-- Projection: the tool data of a settled `save` result, when it resolved
with a record. -/
def savedDataOf : Except String (Option SavedDataM) → Option JSVal
  | Except.ok (some s) => some s.data
  | _ => none

/-- Lookup inside the tunes bag of a settled `save` result. -/
def bagGetSaved (r : Except String (Option SavedDataM)) (key : String) : Option JSVal :=
  (savedTunesOf r).bind (fun b => bagGet b key)

/-- An editable element discovered inside the holder: native inputs and
textareas (`native = true`) or contentEditable elements.  The `id` only
serves to distinguish elements. -/
structure InputEl where
  id : Nat
  native : Bool
deriving DecidableEq, Repr

/-- The input-tracking part of the Block state: the editable elements the
holder subtree currently contains (in document order), the `cachedInputs`
array and the `inputIndex` field.  The index is an `Int` because JavaScript
arithmetic lets `inputs.length - 1` be `-1`. -/
structure BlockInputsState where
  domInputs : List InputEl
  cachedInputs : List InputEl
  inputIndex : Int
deriving DecidableEq, Repr

/-- Modelled from the spec: `$.findAllInputs(holder)` (dom utils, not under
src/) returns all editable elements of the holder subtree in document
order; the holder is modelled by exactly that list. -/
def findAllInputs (st : BlockInputsState) : List InputEl :=
  st.domInputs

/-- JavaScript array read `l[i]`: `undefined` for a negative or
out-of-range index. -/
def jsIndex (l : List InputEl) (i : Int) : Option InputEl :=
  if 0 ≤ i then l.get? i.toNat else none

/-- The `inputs` getter (block/index.ts lines 357-380): return the cache if
it is non-empty; otherwise recompute via `findAllInputs`, set
`inputIndex` to `inputs.length - 1` whenever it exceeds that value, and
fill the cache.  Returns the list together with the updated state. -/
def inputs (st : BlockInputsState) : List InputEl × BlockInputsState :=
  if st.cachedInputs.length ≠ 0 then
    (st.cachedInputs, st)
  else
    let found := findAllInputs st
    let st1 :=
      if st.inputIndex > (found.length : Int) - 1 then
        { st with inputIndex := (found.length : Int) - 1 }
      else
        st
    (found, { st1 with cachedInputs := found })

/-- The `currentInput` getter: `this.inputs[this.inputIndex]`
(block/index.ts lines 387-389).  Returns the element together with the
state updated by the `inputs` getter. -/
def currentInput (st : BlockInputsState) : Option InputEl × BlockInputsState :=
  let (ins, st1) := inputs st
  (jsIndex ins st1.inputIndex, st1)

/-- The `currentInput` setter (block/index.ts lines 396-402): find the
first input that is the passed element or contains it, and update the
index only when one is found.  The identity-or-containment test against
the passed DOM node is abstracted as the predicate `pred`. -/
def setCurrentInput (pred : InputEl → Bool) (st : BlockInputsState) : BlockInputsState :=
  let (ins, st1) := inputs st
  match ins.findIdx? pred with
  | some i => { st1 with inputIndex := (i : Int) }
  | none => st1

/-- A DOM node as inspected by the mutation guard: whether it is an
element node (`$.isElement`) and the value of `dataset.mutationFree`. -/
structure DomNode where
  isElement : Bool
  mutationFree : Option String
deriving DecidableEq, Repr

/-- One `MutationRecord` of a batch: its added and removed nodes. -/
structure MutationRec where
  addedNodes : List DomNode
  removedNodes : List DomNode
deriving DecidableEq, Repr

/-- The argument of the debounced `didMutated` handler: either an
`InputEvent` (from a native input listener) or a batch of mutation
records (from the `MutationObserver`). -/
inductive MutationPayload where
  | inputEvent
  | mutations (recs : List MutationRec)
deriving DecidableEq, Repr

/-- The per-node test of the guard:
the node is an element (per the dom utility isElement) whose dataset
field mutationFree equals the string value true. -/
def isMutationFreeNode (n : DomNode) : Bool :=
  n.isElement && n.mutationFree = some "true"

/-- The per-record test of the guard: some node among
`[...addedNodes, ...removedNodes]` is a mutation-free element. -/
def recordHasMutationFree (r : MutationRec) : Bool :=
  (r.addedNodes ++ r.removedNodes).any isMutationFreeNode

/-- `shouldFireUpdate` inside `didMutated` (block/index.ts lines 226-233):
an `InputEvent` always fires; a batch of records fires unless some record
contains a mutation-free added or removed node. -/
def shouldFireUpdate : MutationPayload → Bool
  | .inputEvent => true
  | .mutations recs => !(recs.any recordHasMutationFree)

/-- Spec-side reading of the guard, for comparison with the code: the
claim says the batch is discarded exactly when *every* added or removed
node of the whole batch carries the mutation-free marker. -/
def allBatchNodesMutationFree (recs : List MutationRec) : Bool :=
  recs.all (fun r => (r.addedNodes ++ r.removedNodes).all isMutationFreeNode)

/-- Body of the debounced `didMutated` handler (block/index.ts lines
225-255): when the guard discards the batch nothing happens; otherwise the
input cache is dropped, `updateCurrentInput` runs (its chosen DOM node is
abstracted by `pred`, see `setCurrentInput`), the `updated` tool hook is
called and the `didMutated` event is emitted.  The returned flag tells
whether the hook was called and the event emitted. -/
def didMutated (pred : InputEl → Bool) (st : BlockInputsState)
    (ev : MutationPayload) : BlockInputsState × Bool :=
  if shouldFireUpdate ev then
    let st1 := { st with cachedInputs := [] }
    let st2 := setCurrentInput pred st1
    (st2, true)
  else
    (st, false)

/-- The observation-wiring part of the Block state: whether the
`MutationObserver` is currently observing the holder, and which inputs
currently carry the `focus` and `input` event listeners. -/
structure ObservationState where
  observing : Bool
  focusListeners : List InputEl
  inputListeners : List InputEl
deriving DecidableEq, Repr

/-- `addEventListener` with the same listener function is idempotent, so a
listener set is modelled by insert-if-absent. -/
def addListener (l : List InputEl) (i : InputEl) : List InputEl :=
  if i ∈ l then l else l ++ [i]

/-- `addInputEvents` (block/index.ts lines 1026-1037): every input gets a
`focus` listener; native inputs additionally get an `input` listener
bound to the debounced `didMutated`. -/
def addInputEvents (ins : List InputEl) (s : ObservationState) : ObservationState :=
  { s with
    focusListeners := ins.foldl addListener s.focusListeners
    inputListeners := (ins.filter (fun i => i.native)).foldl addListener s.inputListeners }

/-- `removeInputEvents` (block/index.ts lines 1042-1050): the mirror image
of `addInputEvents` over the current inputs. -/
def removeInputEvents (ins : List InputEl) (s : ObservationState) : ObservationState :=
  { s with
    focusListeners := s.focusListeners.filter (fun j => !(j ∈ ins))
    inputListeners := s.inputListeners.filter (fun j => !(j ∈ ins && j.native)) }

/-- `willSelect` (block/index.ts lines 751-770): start observing the
holder subtree and wire the input events. -/
def willSelect (ins : List InputEl) (s : ObservationState) : ObservationState :=
  addInputEvents ins { s with observing := true }

/-- `willUnselect` (block/index.ts lines 775-778): disconnect the observer
and remove the input events. -/
def willUnselect (ins : List InputEl) (s : ObservationState) : ObservationState :=
  removeInputEvents ins { s with observing := false }

/-- A DOM occurrence that could reach the debounced `didMutated`: a
mutation of the holder subtree, or a native `input` event on an input
element. -/
inductive BlockDomEvent where
  | domMutation
  | nativeInput (i : InputEl)
deriving DecidableEq, Repr

/-- Whether an occurrence invokes the debounced `didMutated` at all:
mutations are delivered only while the observer observes; `input` events
only reach it through a registered `input` listener. -/
def didMutatedTriggered (s : ObservationState) : BlockDomEvent → Bool
  | .domMutation => s.observing
  | .nativeInput i => i ∈ s.inputListeners

/-- One toolbox entry of the tool: its title and the data overrides it
declares. -/
structure ToolboxEntry where
  title : String
  data : List (String × JSVal)
deriving DecidableEq, Repr

/-- The per-entry test of `getActiveToolboxEntry` (block/index.ts lines
842-847): `Object.entries(item.data).some(([propName, propValue]) =>
blockData[propName] && _.equals(blockData[propName], propValue))` — a
missing block property is `undefined`, hence falsy. -/
def entryMatches (blockData : TunesBag) (item : ToolboxEntry) : Bool :=
  item.data.any (fun kv =>
    match bagGet blockData kv.1 with
    | some bv => bv.truthy && jsEquals bv kv.2
    | none => false)

/-- `getActiveToolboxEntry` (block/index.ts lines 812-848): a single-entry
toolbox short-circuits to its entry; otherwise the first entry passing
`entryMatches` against the current Block data is returned, `undefined`
when none passes. -/
def getActiveToolboxEntry (toolbox : List ToolboxEntry) (blockData : TunesBag) : Option ToolboxEntry :=
  if toolbox.length = 1 then
    toolbox.get? 0
  else
    toolbox.find? (entryMatches blockData)

/-- Spec-side per-entry test, for comparison with the code: the claim asks
for the first entry whose declared data override keys *all* deep-equal the
corresponding current Block values. -/
def specEntryMatches (blockData : TunesBag) (item : ToolboxEntry) : Bool :=
  item.data.all (fun kv =>
    match bagGet blockData kv.1 with
    | some bv => jsEquals bv kv.2
    | none => false)

/-- Spec-side reading of `getActiveToolboxEntry`, built from the words of
the claim: single entry short-circuits; otherwise the first entry all of
whose declared keys deep-equal the Block data is resolved. -/
def specGetActiveToolboxEntry (toolbox : List ToolboxEntry) (blockData : TunesBag) : Option ToolboxEntry :=
  if toolbox.length = 1 then
    toolbox.get? 0
  else
    toolbox.find? (specEntryMatches blockData)

/-- The block list of the editor as seen through the api consumed by the
move tunes: the ordered blocks (modelled by identifiers) and the current
block index. -/
structure EditorBlocksState where
  blocks : List String
  current : Int
deriving DecidableEq, Repr

/-- `api.blocks.getBlockByIndex(i)`: `undefined` outside the valid range. -/
def getBlockByIndex (e : EditorBlocksState) (i : Int) : Option String :=
  if 0 ≤ i then e.blocks.get? i.toNat else none

/-- Modelled from the spec: `api.blocks.move(toIndex)` (external
orchestrator api, not under src/) relocates the current block to
`toIndex` and makes that index current. -/
def blocksMove (e : EditorBlocksState) (toIndex : Int) : EditorBlocksState :=
  if 0 ≤ e.current ∧ 0 ≤ toIndex then
    let without := e.blocks.eraseIdx e.current.toNat
    match e.blocks.get? e.current.toNat with
    | some b => { blocks := without.insertIdx toIndex.toNat b, current := toIndex }
    | none => e
  else
    e

/-- What a move-tune click did: either `api.blocks.move(toIndex)` was
called, or only the transient `wobble` animation class was toggled on the
button (added, removed again 500 ms later) and nothing else happened. -/
inductive TuneClickResult where
  | movedCall (toIndex : Int)
  | animationOnly
deriving DecidableEq, Repr

/-- `MoveDownTune.handleClick` (block-tune-move-down.ts lines 78-113): if
no block exists after the current one, toggle the animation class and
return; otherwise scroll and call `api.blocks.move(currentBlockIndex + 1)`. -/
def moveDownHandleClick (e : EditorBlocksState) : TuneClickResult × EditorBlocksState :=
  let cur := e.current
  match getBlockByIndex e (cur + 1) with
  | none => (TuneClickResult.animationOnly, e)
  | some _ => (TuneClickResult.movedCall (cur + 1), blocksMove e (cur + 1))

/-- `MoveUpTune.handleClick` (block-tune-move-up.ts lines 77-121): if the
current index is zero or the current or previous block is missing, toggle
the animation class and return; otherwise scroll and call
`api.blocks.move(currentBlockIndex - 1)`. -/
def moveUpHandleClick (e : EditorBlocksState) : TuneClickResult × EditorBlocksState :=
  let cur := e.current
  let currentBlock := getBlockByIndex e cur
  let previousBlock := getBlockByIndex e (cur - 1)
  if cur = 0 ∨ currentBlock = none ∨ previousBlock = none then
    (TuneClickResult.animationOnly, e)
  else
    (TuneClickResult.movedCall (cur - 1), blocksMove e (cur - 1))

/-!
Link inline tool (inline-tool-underline.ts, `LinkInlineTool`): the URL
validator regex, the protocol normalizer and the confirm handler.  The
regexes are embedded as nondeterministic matchers: a matcher maps an input
character list to the list of suffixes left after every possible match of
the piece, so regex alternation, option, repetition and backtracking are
the corresponding set operations.
-/

/-- A regex piece: all suffixes remaining after a match at the front. -/
abbrev Matcher := List Char → List (List Char)

/-- Single character class. -/
def mChar (p : Char → Bool) : Matcher := fun l =>
  match l with
  | [] => []
  | c :: rest => if p c then [rest] else []

/-- Concatenation of two pieces. -/
def mSeq (a b : Matcher) : Matcher := fun l =>
  (a l).flatMap b

/-- Alternation of two pieces. -/
def mAlt (a b : Matcher) : Matcher := fun l =>
  a l ++ b l

/-- A piece made optional (`x?`). -/
def mOpt (a : Matcher) : Matcher := fun l =>
  l :: a l

/-- Kleene star, fuelled: every round must consume at least one character,
so `l.length` rounds of fuel are exact for any piece. -/
def mStarFuel (a : Matcher) : Nat → Matcher
  | 0 => fun l => [l]
  | fuel + 1 => fun l =>
      l :: ((a l).filter (fun r => r.length < l.length)).flatMap (mStarFuel a fuel)

/-- Kleene star (`x*`). -/
def mStar (a : Matcher) : Matcher := fun l =>
  mStarFuel a l.length l

/-- One-or-more repetition (`x+`). -/
def mPlus (a : Matcher) : Matcher :=
  mSeq a (mStar a)

/-- A literal character, case-insensitively (the regex carries the `i`
flag). -/
def litc (c : Char) : Matcher :=
  mChar (fun x => x.toLower = c.toLower)

/-- Anchored full-match test (`^ ... $`). -/
def matchesFull (m : Matcher) (s : String) : Bool :=
  (m s.data).contains []

/-- `[a-z]` under the `i` flag. -/
def isLetterCI (c : Char) : Bool :=
  let d := c.toLower
  decide ('a' ≤ d) && decide (d ≤ 'z')

/-- `\d`. -/
def isDigitC (c : Char) : Bool :=
  c.isDigit

/-- `[a-z\d]` under the `i` flag. -/
def isAlnumCI (c : Char) : Bool :=
  isLetterCI c || isDigitC c

/-- `[a-z\d-]` under the `i` flag. -/
def isAlnumHyphenCI (c : Char) : Bool :=
  isAlnumCI c || c = '-'

/-- `\w`. -/
def isWordChar (c : Char) : Bool :=
  isLetterCI c || isDigitC c || c = '_'

/-- `[-a-z\d%_.~+]` (path characters). -/
def isPathChar (c : Char) : Bool :=
  c = '-' || isAlnumCI c || c = '%' || c = '_' || c = '.' || c = '~' || c = '+'

/-- `[;&a-z\d%_.~+=-]` (query characters). -/
def isQueryChar (c : Char) : Bool :=
  c = ';' || c = '&' || isAlnumCI c || c = '%' || c = '_' || c = '.' ||
    c = '~' || c = '+' || c = '=' || c = '-'

/-- `[-a-z\d_]` (fragment characters). -/
def isFragChar (c : Char) : Bool :=
  c = '-' || isAlnumCI c || c = '_'

/-- `(https?:\/\/)?`. -/
def urlProto : Matcher :=
  mOpt (mSeq (litc 'h') (mSeq (litc 't') (mSeq (litc 't') (mSeq (litc 'p')
    (mSeq (mOpt (litc 's')) (mSeq (litc ':') (mSeq (litc '/') (litc '/'))))))))

/-- `[a-z\d]([a-z\d-]*[a-z\d])*` — one domain label. -/
def urlLabel : Matcher :=
  mSeq (mChar isAlnumCI) (mStar (mSeq (mStar (mChar isAlnumHyphenCI)) (mChar isAlnumCI)))

/-- `((([a-z\d]([a-z\d-]*[a-z\d])*)\.)+[a-z]{2,}` — a dotted domain name
ending in a two-plus-letter suffix. -/
def urlDomain : Matcher :=
  mSeq (mPlus (mSeq urlLabel (litc '.')))
    (mSeq (mChar isLetterCI) (mSeq (mChar isLetterCI) (mStar (mChar isLetterCI))))

/-- `\d{1,3}` — one to three digits. -/
def urlOctet : Matcher :=
  mSeq (mChar isDigitC) (mOpt (mSeq (mChar isDigitC) (mOpt (mChar isDigitC))))

/-- `((\d{1,3}\.){3}\d{1,3})` — a dotted-quad IPv4 address. -/
def urlIPv4 : Matcher :=
  mSeq (mSeq urlOctet (litc '.'))
    (mSeq (mSeq urlOctet (litc '.')) (mSeq (mSeq urlOctet (litc '.')) urlOctet))

/-- `(\:\d+)?` — optional port. -/
def urlPort : Matcher :=
  mOpt (mSeq (litc ':') (mPlus (mChar isDigitC)))

/-- `(\/[-a-z\d%_.~+]*)*` — path segments. -/
def urlPath : Matcher :=
  mStar (mSeq (litc '/') (mStar (mChar isPathChar)))

/-- `(\?[;&a-z\d%_.~+=-]*)?` — optional query string. -/
def urlQuery : Matcher :=
  mOpt (mSeq (litc '?') (mStar (mChar isQueryChar)))

/-- `(\#[-a-z\d_]*)?` — optional fragment locator. -/
def urlFrag : Matcher :=
  mOpt (mSeq (litc '#') (mStar (mChar isFragChar)))

/-- `validateURL` (inline-tool-underline.ts lines 495-507): the anchored,
case-insensitive pattern requiring an optional scheme, a domain name or
IPv4 host, then optional port, path, query and fragment. -/
def validateURL (s : String) : Bool :=
  matchesFull
    (mSeq urlProto (mSeq (mAlt urlDomain urlIPv4)
      (mSeq urlPort (mSeq urlPath (mSeq urlQuery urlFrag)))))
    s

/-- The test `/^(\w+):(\/\/)?/.test(link)` of `addProtocol`: an existing
scheme at the front.  The test is unanchored at the end, so a match is any
nonempty result set of the prefix pieces. -/
def hasScheme (link : String) : Bool :=
  !((mSeq (mPlus (mChar isWordChar))
      (mSeq (mChar (fun c => c = ':')) (mOpt (mSeq (litc '/') (litc '/'))))) link.data).isEmpty

/-- The test `/^\/[^/\s]/.test(link)` of `addProtocol`: a root-relative
internal path. -/
def isInternalLink (link : String) : Bool :=
  match link.data with
  | '/' :: c :: _ => !(c = '/') && !c.isWhitespace
  | _ => false

/-- The test `link.substring(0, 1) === '#'` of `addProtocol`. -/
def isAnchorLink (link : String) : Bool :=
  match link.data with
  | '#' :: _ => true
  | _ => false

/-- The test `/^\/\/[^/\s]/.test(link)` of `addProtocol`: a
protocol-relative URL. -/
def isProtocolRelativeLink (link : String) : Bool :=
  match link.data with
  | '/' :: '/' :: c :: _ => !(c = '/') && !c.isWhitespace
  | _ => false

/-- JavaScript `String.prototype.trim`: drop whitespace from both ends. -/
def jsTrim (s : String) : String :=
  String.mk (((s.data.dropWhile Char.isWhitespace).reverse.dropWhile Char.isWhitespace).reverse)

/-- `addProtocol` (inline-tool-underline.ts lines 528-551): keep a link
that already has a scheme; keep internal paths, anchors and
protocol-relative URLs; otherwise prefix `https://`. -/
def addProtocol (link : String) : String :=
  if hasScheme link then
    link
  else if !isInternalLink link && !isAnchorLink link && !isProtocolRelativeLink link then
    "https://" ++ link
  else
    link

/-- `prepareLink` (inline-tool-underline.ts lines 516-521): trim, then add
the missing protocol. -/
def prepareLink (link : String) : String :=
  addProtocol (jsTrim link)

/-- Outcome of confirming the link input (`enterPressed`): a
whitespace-only value restores the selection, unlinks and closes; an
invalid value shows the error tooltip for the given number of
milliseconds and neither closes nor commits; a valid value is normalized
and committed (selection restored, fake background removed, link
inserted, toolbar closed). -/
inductive EnterOutcome where
  | unlinkAndClose
  | invalidTooltip (ms : Nat)
  | commit (href : String)
deriving DecidableEq, Repr

/-- `enterPressed` (inline-tool-underline.ts lines 448-487) as a function
of the input value. -/
def enterPressed (value : String) : EnterOutcome :=
  if jsTrim value = "" then
    EnterOutcome.unlinkAndClose
  else if !validateURL value then
    EnterOutcome.invalidTooltip 1000
  else
    EnterOutcome.commit (prepareLink value)

/-! Helper lemmas about the tunes bag and the save fold. -/

theorem bagGet_bagSet_self (bag : TunesBag) (k : String) (v : JSVal) :
    bagGet (bagSet bag k v) k = some v := by
  induction bag with
  | nil => simp [bagSet, bagGet]
  | cons hd tl ih =>
      obtain ⟨a, b⟩ := hd
      by_cases h : a = k
      · simp [bagSet, bagGet, h]
      · simp [bagSet, bagGet, h, ih]

theorem bagGet_bagSet_ne (bag : TunesBag) (k key : String) (v : JSVal) (h : k ≠ key) :
    bagGet (bagSet bag k v) key = bagGet bag key := by
  induction bag with
  | nil => simp [bagSet, bagGet, h]
  | cons hd tl ih =>
      obtain ⟨a, b⟩ := hd
      by_cases ha : a = k
      · subst ha
        simp [bagSet, bagGet, h]
      · by_cases hak : a = key
        · simp [bagSet, bagGet, ha, hak, Ne.symm h]
        · simp [bagSet, bagGet, ha, hak, ih]

theorem saveTunesBag_get_noWrite (names : List String) (behavior : TuneSaveBehavior)
    (bag : TunesBag) (key : String)
    (h : ∀ n ∈ names, n = key → ∀ v, behavior n ≠ some (Except.ok v)) :
    bagGet (saveTunesBag names behavior bag) key = bagGet bag key := by
  induction names generalizing bag with
  | nil => rfl
  | cons n rest ih =>
      have hrest : ∀ m ∈ rest, m = key → ∀ v, behavior m ≠ some (Except.ok v) :=
        fun m hm => h m (List.mem_cons_of_mem _ hm)
      cases hb : behavior n with
      | none =>
          simp only [saveTunesBag, hb]
          exact ih _ hrest
      | some x =>
          cases x with
          | ok v =>
              have hn : n ≠ key := fun he => h n (List.mem_cons_self _ _) he v hb
              simp only [saveTunesBag, hb]
              rw [ih _ hrest, bagGet_bagSet_ne _ _ _ _ hn]
          | error e =>
              simp only [saveTunesBag, hb]
              exact ih _ hrest

theorem saveTunesBag_get_notMem (names : List String) (behavior : TuneSaveBehavior)
    (bag : TunesBag) (key : String) (h : key ∉ names) :
    bagGet (saveTunesBag names behavior bag) key = bagGet bag key :=
  saveTunesBag_get_noWrite names behavior bag key
    (fun _ hn he _ _ => h (he ▸ hn))

theorem saveTunesBag_get_ok (names : List String) (behavior : TuneSaveBehavior)
    (bag : TunesBag) (key : String) (v : JSVal)
    (hnd : names.Nodup) (hmem : key ∈ names) (hb : behavior key = some (Except.ok v)) :
    bagGet (saveTunesBag names behavior bag) key = some v := by
  revert hnd hmem
  induction names generalizing bag with
  | nil =>
      intro _ hmem
      cases hmem
  | cons n rest ih =>
      intro hnd hmem
      obtain ⟨hnin, hndr⟩ := List.nodup_cons.mp hnd
      rcases List.mem_cons.mp hmem with he | hm
      · subst he
        simp only [saveTunesBag, hb]
        rw [saveTunesBag_get_notMem _ _ _ _ hnin, bagGet_bagSet_self]
      · cases hbn : behavior n with
        | none =>
            simp only [saveTunesBag, hbn]
            exact ih _ hndr hm
        | some x =>
            cases x with
            | ok w =>
                simp only [saveTunesBag, hbn]
                exact ih _ hndr hm
            | error e =>
                simp only [saveTunesBag, hbn]
                exact ih _ hndr hm

theorem nameMem_eq_true_iff (n : String) (l : List String) : nameMem n l = true ↔ n ∈ l := by
  induction l with
  | nil => simp [nameMem]
  | cons x rest ih =>
      by_cases h : x = n
      · subst h
        simp [nameMem]
      · have hne : ¬(n = x) := fun he => h he.symm
        simp [nameMem, h, ih, hne]

theorem nameMem_eq_false (n : String) (l : List String) (h : n ∉ l) : nameMem n l = false := by
  cases hb : nameMem n l with
  | false => rfl
  | true => exact absurd ((nameMem_eq_true_iff n l).mp hb) h

theorem filter_unavailable_get (td : TunesBag) (userNames : List String) (name : String)
    (h : nameMem name userNames = false) :
    bagGet (td.filter (fun e => !(nameMem e.1 userNames))) name = bagGet td name := by
  induction td with
  | nil => rfl
  | cons hd tl ih =>
      obtain ⟨k, v⟩ := hd
      by_cases hk : k = name
      · subst hk
        simp [List.filter_cons, h, bagGet]
      · cases hm : nameMem k userNames with
        | true => simp [List.filter_cons, hm, bagGet, hk, ih]
        | false => simp [List.filter_cons, hm, bagGet, hk, ih]

theorem not_mem_registered_names (tunes : List TuneDecl) (name : String)
    (hreg : ∀ t ∈ tunes, t.name ≠ name) (p : TuneDecl → Bool) :
    name ∉ (tunes.filter p).map TuneDecl.name := by
  intro hmem
  obtain ⟨t, ht, he⟩ := List.mem_map.mp hmem
  exact hreg t (List.mem_of_mem_filter ht) he

/-- Claim C3 (status: code bug, evaluation of the code at the failing
input).  When the tool save settles as a rejection, `Block.save` itself
rejects with that error and leaves the Block state untouched: the `await`
on the first line of `save` rethrows before the `catch`-bearing promise
chain is ever built, so the logged-and-resolve-undefined path claimed by
the spec never runs. -/
theorem c3_tool_save_failure_rejects :
    save { userTunes := ["t1"], defaultTunes := [], unavailableTunesData := [] }
        "b1" "paragraph" (Except.error "boom") (fun _ => none) 7
      = (Except.error "boom",
         { userTunes := ["t1"], defaultTunes := [], unavailableTunesData := [] }) :=
  rfl

/-- Claim C6 (confirmed).  For a tune name present in the construction
`tunesData` but not registered as a tune of the Block, the result of
`save` maps that name to exactly the passed data; and reconstructing a
Block from the saved tunes bag and saving again yields that same data
once more: unavailable tune data survives the save, load, save round
trip verbatim. -/
theorem c6_unavailable_tunes_round_trip (tunes : List TuneDecl) (td : TunesBag)
    (name : String) (v : JSVal) (blockId toolName : String)
    (b1 b2 : TuneSaveBehavior) (d1 d2 : JSVal) (t1 t2 : Int)
    (hreg : ∀ t ∈ tunes, t.name ≠ name)
    (hv : bagGet td name = some v) :
    bagGetSaved (save (composeTunes tunes td) blockId toolName (Except.ok d1) b1 t1).1 name
      = some v ∧
    (∀ bag1,
      savedTunesOf (save (composeTunes tunes td) blockId toolName (Except.ok d1) b1 t1).1
          = some bag1 →
      bagGetSaved (save (composeTunes tunes bag1) blockId toolName (Except.ok d2) b2 t2).1 name
        = some v) := by
  have huser := not_mem_registered_names tunes name hreg (fun t => !t.isInternal)
  have hdefault := not_mem_registered_names tunes name hreg (fun t => t.isInternal)
  have hnames : name ∉
      ((tunes.filter (fun t => !t.isInternal)).map TuneDecl.name ++
        (tunes.filter (fun t => t.isInternal)).map TuneDecl.name) := by
    intro hmem
    rcases List.mem_append.mp hmem with hmem1 | hmem2
    · exact huser hmem1
    · exact hdefault hmem2
  have hfalse : nameMem name ((tunes.filter (fun t => !t.isInternal)).map TuneDecl.name)
      = false := nameMem_eq_false _ _ huser
  have hfirst : bagGetSaved
      (save (composeTunes tunes td) blockId toolName (Except.ok d1) b1 t1).1 name = some v := by
    simp only [composeTunes, save, savePromiseChain, bagGetSaved, savedTunesOf, Option.bind]
    rw [saveTunesBag_get_notMem _ _ _ _ hnames, filter_unavailable_get _ _ _ hfalse, hv]
  refine ⟨hfirst, ?_⟩
  intro bag1 hbag1
  have hbag1eq : bag1 =
      saveTunesBag
        ((tunes.filter (fun t => !t.isInternal)).map TuneDecl.name ++
          (tunes.filter (fun t => t.isInternal)).map TuneDecl.name)
        b1 (td.filter (fun e =>
          !(nameMem e.1 ((tunes.filter (fun t => !t.isInternal)).map TuneDecl.name)))) := by
    simp only [composeTunes, save, savePromiseChain, savedTunesOf] at hbag1
    exact (Option.some.injEq _ _ ▸ hbag1).symm
  have hv1 : bagGet bag1 name = some v := by
    have := hfirst
    simp only [composeTunes, save, savePromiseChain, bagGetSaved, savedTunesOf,
      Option.bind] at this
    rw [hbag1eq]
    exact this
  simp only [composeTunes, save, savePromiseChain, bagGetSaved, savedTunesOf, Option.bind]
  rw [saveTunesBag_get_notMem _ _ _ _ hnames, filter_unavailable_get _ _ _ hfalse, hv1]

/-- Witness for claim C6: a concrete Block with one internal tune and
saved data for the unregistered tune name ghost round-trips that data. -/
theorem c6_witness :
    bagGetSaved
      (save (composeTunes [{ name := "mv", isInternal := true }] [("ghost", JSVal.num 7)])
        "b1" "paragraph" (Except.ok (JSVal.num 0)) (fun _ => none) 3).1 "ghost"
      = some (JSVal.num 7) :=
  (c6_unavailable_tunes_round_trip [{ name := "mv", isInternal := true }]
    [("ghost", JSVal.num 7)] "ghost" (JSVal.num 7) "b1" "paragraph"
    (fun _ => none) (fun _ => none) (JSVal.num 0) (JSVal.num 0) 3 3
    (by decide) (by decide)).1

/-- Counterexample to claim C7 as stated: a Block constructed with data
for an internal tune keeps that data in `unavailableTunesData`, so when
the tune method `save` throws, its entry is NOT excluded from the
resulting tunes bag — the stale constructor-time value is emitted. -/
theorem c7_counterexample :
    bagGetSaved
      (save (composeTunes [{ name := "mover", isInternal := true }]
          [("mover", JSVal.num 1)])
        "b1" "paragraph" (Except.ok (JSVal.num 0))
        (fun n => if n = "mover" then some (Except.error "boom") else none) 3).1 "mover"
      = some (JSVal.num 1) := by
  decide

/-- Claim C7 (corrected).  During `save`, a tune method `save` that throws
is caught and writes nothing, so its entry is absent from the resulting
tunes bag provided `unavailableTunesData` held no prior value for that
name; every sibling tune that saves successfully is still included, and
the tool data extraction is unaffected. -/
theorem c7_tune_save_error_isolation (st : BlockTunesState) (blockId toolName : String)
    (behavior : TuneSaveBehavior) (d : JSVal) (t : Int)
    (tname sname : String) (err : String) (v : JSVal)
    (hnd : (st.userTunes ++ st.defaultTunes).Nodup)
    (hnone : bagGet st.unavailableTunesData tname = none)
    (hthrow : behavior tname = some (Except.error err))
    (hsib : sname ∈ st.userTunes ++ st.defaultTunes)
    (hok : behavior sname = some (Except.ok v)) :
    savedDataOf (save st blockId toolName (Except.ok d) behavior t).1 = some d ∧
    bagGetSaved (save st blockId toolName (Except.ok d) behavior t).1 tname = none ∧
    bagGetSaved (save st blockId toolName (Except.ok d) behavior t).1 sname = some v := by
  refine ⟨rfl, ?_, ?_⟩
  · simp only [save, savePromiseChain, bagGetSaved, savedTunesOf, Option.bind]
    have hnw : ∀ n ∈ st.userTunes ++ st.defaultTunes, n = tname →
        ∀ w, behavior n ≠ some (Except.ok w) := by
      intro n _ he w hb
      rw [he, hthrow] at hb
      cases hb
    rw [saveTunesBag_get_noWrite _ _ _ _ hnw, hnone]
  · simp only [save, savePromiseChain, bagGetSaved, savedTunesOf, Option.bind]
    exact saveTunesBag_get_ok _ _ _ _ _ hnd hsib hok

/-- Witness for claim C7: with user tune alpha throwing and internal tune
beta succeeding, the saved bag omits alpha, keeps beta, and the tool data
comes through. -/
theorem c7_witness :
    savedDataOf
      (save { userTunes := ["alpha"], defaultTunes := ["beta"], unavailableTunesData := [] }
        "b1" "paragraph" (Except.ok (JSVal.num 9))
        (fun n =>
          if n = "alpha" then some (Except.error "e")
          else if n = "beta" then some (Except.ok (JSVal.num 5)) else none) 2).1
      = some (JSVal.num 9) ∧
    bagGetSaved
      (save { userTunes := ["alpha"], defaultTunes := ["beta"], unavailableTunesData := [] }
        "b1" "paragraph" (Except.ok (JSVal.num 9))
        (fun n =>
          if n = "alpha" then some (Except.error "e")
          else if n = "beta" then some (Except.ok (JSVal.num 5)) else none) 2).1 "alpha"
      = none ∧
    bagGetSaved
      (save { userTunes := ["alpha"], defaultTunes := ["beta"], unavailableTunesData := [] }
        "b1" "paragraph" (Except.ok (JSVal.num 9))
        (fun n =>
          if n = "alpha" then some (Except.error "e")
          else if n = "beta" then some (Except.ok (JSVal.num 5)) else none) 2).1 "beta"
      = some (JSVal.num 5) :=
  c7_tune_save_error_isolation
    { userTunes := ["alpha"], defaultTunes := ["beta"], unavailableTunesData := [] }
    "b1" "paragraph"
    (fun n =>
      if n = "alpha" then some (Except.error "e")
      else if n = "beta" then some (Except.ok (JSVal.num 5)) else none)
    (JSVal.num 9) 2 "alpha" "beta" "e" (JSVal.num 5)
    (by decide) (by decide) rfl (by decide) rfl

/-- Claim C9 (confirmed).  `save` uses the persistent
`unavailableTunesData` object itself as the tunes bag of its result and
writes every registered tune successful output into it; hence a value
recorded by one successful save persists in the Block state and is
re-emitted by a later save even when that tune method `save` throws in
the later call. -/
theorem c9_tunes_bag_aliasing_persistence (st : BlockTunesState)
    (blockId toolName : String) (b1 b2 : TuneSaveBehavior)
    (d1 d2 : JSVal) (t1 t2 : Int) (name : String) (v : JSVal) (err : String)
    (hnd : (st.userTunes ++ st.defaultTunes).Nodup)
    (hmem : name ∈ st.userTunes ++ st.defaultTunes)
    (hb1 : b1 name = some (Except.ok v))
    (hb2 : b2 name = some (Except.error err)) :
    savedTunesOf (save st blockId toolName (Except.ok d1) b1 t1).1
      = some (save st blockId toolName (Except.ok d1) b1 t1).2.unavailableTunesData ∧
    bagGet (save st blockId toolName (Except.ok d1) b1 t1).2.unavailableTunesData name
      = some v ∧
    bagGetSaved
      (save (save st blockId toolName (Except.ok d1) b1 t1).2 blockId toolName
        (Except.ok d2) b2 t2).1 name
      = some v := by
  have hpersist : bagGet (save st blockId toolName (Except.ok d1) b1 t1).2.unavailableTunesData
      name = some v := by
    simp only [save]
    exact saveTunesBag_get_ok _ _ _ _ _ hnd hmem hb1
  refine ⟨rfl, hpersist, ?_⟩
  have hnw : ∀ n ∈ st.userTunes ++ st.defaultTunes, n = name →
      ∀ w, b2 n ≠ some (Except.ok w) := by
    intro n _ he w hb
    rw [he, hb2] at hb
    cases hb
  simp only [save, savePromiseChain, bagGetSaved, savedTunesOf, Option.bind]
  simp only [save] at hpersist
  rw [saveTunesBag_get_noWrite _ _ _ _ hnw]
  exact hpersist

/-- Witness for claim C9: tune gamma saves the value 4 in the first call
and throws in the second; the second saved bag still carries 4. -/
theorem c9_witness :
    bagGetSaved
      (save
        (save { userTunes := ["gamma"], defaultTunes := [], unavailableTunesData := [] }
          "b1" "paragraph" (Except.ok (JSVal.num 0))
          (fun n => if n = "gamma" then some (Except.ok (JSVal.num 4)) else none) 1).2
        "b1" "paragraph" (Except.ok (JSVal.num 0))
        (fun n => if n = "gamma" then some (Except.error "late") else none) 1).1 "gamma"
      = some (JSVal.num 4) :=
  (c9_tunes_bag_aliasing_persistence
    { userTunes := ["gamma"], defaultTunes := [], unavailableTunesData := [] }
    "b1" "paragraph"
    (fun n => if n = "gamma" then some (Except.ok (JSVal.num 4)) else none)
    (fun n => if n = "gamma" then some (Except.error "late") else none)
    (JSVal.num 0) (JSVal.num 0) 1 1 "gamma" (JSVal.num 4) "late"
    (by decide) (by decide) rfl rfl).2.2

/-- Counterexample to claim C1 as stated: a batch whose record adds one
marked and one unmarked element is discarded by the handler (no updated
hook, no emission) even though not every node of the batch carries the
mutation-free marker — so marking only some of the nodes does suppress
the notification, contrary to the claim. -/
theorem c1_counterexample :
    shouldFireUpdate
        (MutationPayload.mutations
          [{ addedNodes := [{ isElement := true, mutationFree := some "true" },
                            { isElement := true, mutationFree := none }],
             removedNodes := [] }]) = false ∧
    allBatchNodesMutationFree
        [{ addedNodes := [{ isElement := true, mutationFree := some "true" },
                          { isElement := true, mutationFree := none }],
           removedNodes := [] }] = false ∧
    (didMutated (fun _ => false)
        { domInputs := [], cachedInputs := [], inputIndex := 0 }
        (MutationPayload.mutations
          [{ addedNodes := [{ isElement := true, mutationFree := some "true" },
                            { isElement := true, mutationFree := none }],
             removedNodes := [] }])).2 = false := by
  decide

/-- Claim C1 (corrected).  A batch of mutation records processed by the
`didMutated` handler is discarded — state untouched, no updated hook, no
emission — exactly when at least one record of the batch adds or removes
an element node carrying the mutation-free marker; so marking only some
nodes of a batch also suppresses the notification. -/
theorem c1_mutation_free_guard (pred : InputEl → Bool) (st : BlockInputsState)
    (recs : List MutationRec) :
    ((didMutated pred st (MutationPayload.mutations recs)).2 = false
      ↔ recs.any recordHasMutationFree = true) ∧
    (recs.any recordHasMutationFree = true →
      didMutated pred st (MutationPayload.mutations recs) = (st, false)) := by
  cases h : recs.any recordHasMutationFree with
  | true => simp [didMutated, shouldFireUpdate, h]
  | false => simp [didMutated, shouldFireUpdate, h]

/-- Witness for claim C1: a batch whose single record removes one marked
element node is discarded whole. -/
theorem c1_witness :
    [({ addedNodes := [],
        removedNodes := [{ isElement := true, mutationFree := some "true" }] } :
        MutationRec)].any recordHasMutationFree = true ∧
    didMutated (fun _ => false) { domInputs := [], cachedInputs := [], inputIndex := 0 }
        (MutationPayload.mutations
          [{ addedNodes := [],
             removedNodes := [{ isElement := true, mutationFree := some "true" }] }])
      = ({ domInputs := [], cachedInputs := [], inputIndex := 0 }, false) :=
  ⟨by decide,
   (c1_mutation_free_guard (fun _ => false)
     { domInputs := [], cachedInputs := [], inputIndex := 0 }
     [{ addedNodes := [],
        removedNodes := [{ isElement := true, mutationFree := some "true" }] }]).2
     (by decide)⟩

/-- Counterexample to claim C2 as stated: recomputing the `inputs` cache
for a holder with zero discovered inputs stores `-1` into `inputIndex` —
the index does go negative and `currentInput` is undefined, so it is not
always clamped into the claimed range. -/
theorem c2_counterexample :
    (inputs { domInputs := [], cachedInputs := [], inputIndex := 0 }).2.inputIndex = -1 ∧
    (currentInput { domInputs := [], cachedInputs := [], inputIndex := 0 }).1 = none := by
  decide

theorem inputs_recompute (st : BlockInputsState) (hcache : st.cachedInputs = []) :
    inputs st =
      (st.domInputs,
        { domInputs := st.domInputs
          cachedInputs := st.domInputs
          inputIndex :=
            if st.inputIndex > (st.domInputs.length : Int) - 1 then
              (st.domInputs.length : Int) - 1
            else
              st.inputIndex }) := by
  by_cases h : st.inputIndex > (st.domInputs.length : Int) - 1 <;>
    simp [inputs, findAllInputs, hcache, h]

/-- Claim C2 (corrected).  When the `inputs` getter recomputes the cache,
it clamps the index from above only: afterwards `inputIndex` never exceeds
`inputs.length - 1`; and whenever at least one input is discovered and the
stored index was non-negative, the index lands in `[0, inputs.length - 1]`
and `currentInput` denotes an element of `inputs` — but with zero inputs
the index becomes `-1`. -/
theorem c2_input_index_clamp (st : BlockInputsState) (hcache : st.cachedInputs = []) :
    (inputs st).2.inputIndex ≤ (st.domInputs.length : Int) - 1 ∧
    (0 ≤ st.inputIndex → st.domInputs ≠ [] →
      0 ≤ (inputs st).2.inputIndex ∧
      ∃ el, (currentInput st).1 = some el ∧ el ∈ (inputs st).1) := by
  by_cases h : st.inputIndex > (st.domInputs.length : Int) - 1
  · have hrec : inputs st =
        (st.domInputs,
          { domInputs := st.domInputs, cachedInputs := st.domInputs,
            inputIndex := (st.domInputs.length : Int) - 1 }) := by
      simp [inputs, findAllInputs, hcache, h]
    have h2 : (inputs st).2.inputIndex = (st.domInputs.length : Int) - 1 := by rw [hrec]
    have h1 : (inputs st).1 = st.domInputs := by rw [hrec]
    refine ⟨le_of_eq h2, ?_⟩
    intro hnn hne
    have hpos : 0 < st.domInputs.length := List.length_pos.mpr hne
    refine ⟨by rw [h2]; omega, ?_⟩
    have hnat : ((st.domInputs.length : Int) - 1).toNat < st.domInputs.length := by omega
    refine ⟨st.domInputs.get ⟨((st.domInputs.length : Int) - 1).toNat, hnat⟩, ?_,
      by rw [h1]; exact List.get_mem _ _ _⟩
    have hcur : (currentInput st).1 =
        jsIndex st.domInputs ((st.domInputs.length : Int) - 1) := by
      simp [currentInput, hrec]
    rw [hcur]
    simp only [jsIndex]
    rw [if_pos (by omega : (0 : Int) ≤ (st.domInputs.length : Int) - 1)]
    exact List.get?_eq_get hnat
  · have hrec : inputs st =
        (st.domInputs,
          { domInputs := st.domInputs, cachedInputs := st.domInputs,
            inputIndex := st.inputIndex }) := by
      simp [inputs, findAllInputs, hcache, h]
    have h2 : (inputs st).2.inputIndex = st.inputIndex := by rw [hrec]
    have h1 : (inputs st).1 = st.domInputs := by rw [hrec]
    refine ⟨by rw [h2]; omega, ?_⟩
    intro hnn hne
    have hpos : 0 < st.domInputs.length := List.length_pos.mpr hne
    refine ⟨by rw [h2]; omega, ?_⟩
    have hnat : st.inputIndex.toNat < st.domInputs.length := by omega
    refine ⟨st.domInputs.get ⟨st.inputIndex.toNat, hnat⟩, ?_,
      by rw [h1]; exact List.get_mem _ _ _⟩
    have hcur : (currentInput st).1 = jsIndex st.domInputs st.inputIndex := by
      simp [currentInput, hrec]
    rw [hcur]
    simp only [jsIndex]
    rw [if_pos hnn]
    exact List.get?_eq_get hnat

/-- Witness for claim C2: one discovered input and index zero — after the
recompute the index is in range and `currentInput` is that input. -/
theorem c2_witness :
    (0 : Int) ≤ 0 ∧
    ([({ id := 0, native := true } : InputEl)] ≠ ([] : List InputEl)) ∧
    0 ≤ (inputs { domInputs := [{ id := 0, native := true }], cachedInputs := [], inputIndex := 0 }).2.inputIndex ∧
    ∃ el,
      (currentInput { domInputs := [{ id := 0, native := true }], cachedInputs := [], inputIndex := 0 }).1 = some el ∧
      el ∈ (inputs { domInputs := [{ id := 0, native := true }], cachedInputs := [], inputIndex := 0 }).1 := by
  have h := (c2_input_index_clamp
    { domInputs := [{ id := 0, native := true }], cachedInputs := [], inputIndex := 0 }
    rfl).2 (by decide) (by decide)
  exact ⟨le_refl 0, by decide, h.1, h.2⟩

/-- Counterexample to claim C4 as stated: with two toolbox entries whose
declared keys are a:1,b:2 and a:1,b:3 and Block data a:1,b:3, the code
resolves the FIRST entry because one of its keys matches, although not
all of its keys deep-equal the data — the all-keys reading would resolve
the second entry instead. -/
theorem c4_counterexample :
    getActiveToolboxEntry
        [{ title := "H1", data := [("a", JSVal.num 1), ("b", JSVal.num 2)] },
         { title := "H2", data := [("a", JSVal.num 1), ("b", JSVal.num 3)] }]
        [("a", JSVal.num 1), ("b", JSVal.num 3)]
      = some { title := "H1", data := [("a", JSVal.num 1), ("b", JSVal.num 2)] } ∧
    specGetActiveToolboxEntry
        [{ title := "H1", data := [("a", JSVal.num 1), ("b", JSVal.num 2)] },
         { title := "H2", data := [("a", JSVal.num 1), ("b", JSVal.num 3)] }]
        [("a", JSVal.num 1), ("b", JSVal.num 3)]
      = some { title := "H2", data := [("a", JSVal.num 1), ("b", JSVal.num 3)] } ∧
    specEntryMatches [("a", JSVal.num 1), ("b", JSVal.num 3)]
        { title := "H1", data := [("a", JSVal.num 1), ("b", JSVal.num 2)] }
      = false := by
  decide

/-- Helper: `List.find?` returns the head of the first satisfying
position in an append decomposition. -/
theorem find_first_of_append (p : ToolboxEntry → Bool) (l1 : List ToolboxEntry)
    (e : ToolboxEntry) (l2 : List ToolboxEntry)
    (hpe : p e = true) (h1 : ∀ x ∈ l1, p x = false) :
    (l1 ++ e :: l2).find? p = some e := by
  induction l1 with
  | nil => simp [List.find?_cons_of_pos _ hpe]
  | cons x xs ih =>
      have hx : p x = false := h1 x (List.mem_cons_self _ _)
      have hxs : ∀ y ∈ xs, p y = false := fun y hy => h1 y (List.mem_cons_of_mem _ hy)
      simp only [List.cons_append]
      rw [List.find?_cons_of_neg _ (by simp [hx]), ih hxs]

/-- Claim C4 (corrected).  `getActiveToolboxEntry` with a single toolbox
entry resolves that entry regardless of the Block data; with multiple
entries it resolves the FIRST entry at least one of whose declared data
override keys has a truthy Block value deep-equal to the override (not
all keys, as claimed), and resolves nothing when no entry has such a
key. -/
theorem c4_active_toolbox_entry (tb : List ToolboxEntry) (bd : TunesBag) :
    (tb.length = 1 → getActiveToolboxEntry tb bd = tb.get? 0) ∧
    (tb.length ≠ 1 →
      ((∀ e ∈ tb, entryMatches bd e = false) → getActiveToolboxEntry tb bd = none) ∧
      (∀ l1 e l2, tb = l1 ++ e :: l2 → entryMatches bd e = true →
        (∀ x ∈ l1, entryMatches bd x = false) → getActiveToolboxEntry tb bd = some e)) := by
  constructor
  · intro h1
    simp [getActiveToolboxEntry, h1]
  · intro hne
    constructor
    · intro hall
      simp only [getActiveToolboxEntry, if_neg hne]
      exact List.find?_eq_none.mpr (fun x hx => by simp [hall x hx])
    · intro l1 e l2 hsplit hpe h1
      subst hsplit
      simp only [getActiveToolboxEntry]
      rw [if_neg hne]
      exact find_first_of_append _ l1 e l2 hpe h1

/-- Witness for claim C4: a two-entry toolbox with the second entry
matching resolves the second entry; a singleton toolbox resolves its only
entry. -/
theorem c4_witness :
    getActiveToolboxEntry
        [{ title := "H1", data := [("level", JSVal.num 1)] },
         { title := "H2", data := [("level", JSVal.num 2)] }]
        [("level", JSVal.num 2)]
      = some { title := "H2", data := [("level", JSVal.num 2)] } ∧
    getActiveToolboxEntry [{ title := "only", data := [] }] [("level", JSVal.num 9)]
      = some { title := "only", data := [] } := by
  constructor
  · exact (c4_active_toolbox_entry
      [{ title := "H1", data := [("level", JSVal.num 1)] },
       { title := "H2", data := [("level", JSVal.num 2)] }]
      [("level", JSVal.num 2)] |>.2 (by decide)).2
      [{ title := "H1", data := [("level", JSVal.num 1)] }]
      { title := "H2", data := [("level", JSVal.num 2)] } []
      rfl (by decide) (by decide)
  · have h := (c4_active_toolbox_entry [{ title := "only", data := [] }]
      [("level", JSVal.num 9)]).1 rfl
    simpa using h

/-- Counterexample to claim C5 as stated: the URL validator rejects the
root-relative path and the anchor fragment (its pattern requires a
domain name or IPv4 host), so on confirm they are not committed — a
tooltip is shown instead. -/
theorem c5_counterexample :
    validateURL "/internal/path" = false ∧
    validateURL "#section" = false ∧
    enterPressed "/internal/path" = EnterOutcome.invalidTooltip 1000 ∧
    enterPressed "#section" = EnterOutcome.invalidTooltip 1000 := by
  decide

/-- Claim C5 (corrected).  On confirm of the link input, example.com
passes validation and commits normalized to https://example.com; the
values /internal/path and #section FAIL validation, showing the 1000 ms
tooltip without closing or committing (addProtocol would have left them
unchanged, but the confirm path never reaches it for them); the value
with spaces fails validation the same way. -/
theorem c5_link_confirm :
    enterPressed "example.com" = EnterOutcome.commit "https://example.com" ∧
    enterPressed "/internal/path" = EnterOutcome.invalidTooltip 1000 ∧
    enterPressed "#section" = EnterOutcome.invalidTooltip 1000 ∧
    enterPressed "not a url with spaces" = EnterOutcome.invalidTooltip 1000 ∧
    addProtocol "/internal/path" = "/internal/path" ∧
    addProtocol "#section" = "#section" := by
  decide

/-- Helper: membership after one `addListener` insertion. -/
theorem mem_addListener (l : List InputEl) (x i : InputEl) :
    i ∈ addListener l x ↔ i ∈ l ∨ i = x := by
  by_cases h : x ∈ l
  · simp only [addListener, if_pos h]
    constructor
    · exact Or.inl
    · rintro (hi | hi)
      · exact hi
      · exact hi ▸ h
  · simp [addListener, if_neg h]

/-- Helper: membership after folding `addListener` over a list. -/
theorem mem_foldl_addListener (toAdd : List InputEl) (init : List InputEl) (i : InputEl) :
    i ∈ toAdd.foldl addListener init ↔ i ∈ init ∨ i ∈ toAdd := by
  induction toAdd generalizing init with
  | nil => simp
  | cons x xs ih =>
      simp only [List.foldl_cons]
      rw [ih, mem_addListener]
      constructor
      · rintro ((hi | hi) | hi)
        · exact Or.inl hi
        · exact Or.inr (hi ▸ List.mem_cons_self _ _)
        · exact Or.inr (List.mem_cons_of_mem _ hi)
      · rintro (hi | hi)
        · exact Or.inl (Or.inl hi)
        · rcases List.mem_cons.mp hi with he | hm
          · exact Or.inl (Or.inr he)
          · exact Or.inr hm

/-- Claim C8 (confirmed).  Calling `willSelect` and then immediately
`willUnselect` with the same discovered inputs leaves no mutation
observation active: the observer is disconnected, so a DOM mutation no
longer invokes `didMutated`, and for every current input both its focus
listener and (for native inputs) its `input` listener are gone, so a
native input event no longer invokes `didMutated` either. -/
theorem c8_no_observation_after_unselect (ins : List InputEl) (s : ObservationState)
    (i : InputEl)
    (hnat : ∀ j ∈ s.inputListeners, j.native = true)
    (hins : i ∈ ins) :
    (willUnselect ins (willSelect ins s)).observing = false ∧
    didMutatedTriggered (willUnselect ins (willSelect ins s)) BlockDomEvent.domMutation
      = false ∧
    didMutatedTriggered (willUnselect ins (willSelect ins s)) (BlockDomEvent.nativeInput i)
      = false ∧
    i ∉ (willUnselect ins (willSelect ins s)).focusListeners := by
  have hobs : (willUnselect ins (willSelect ins s)).observing = false := rfl
  have hinotin : i ∉ (willUnselect ins (willSelect ins s)).inputListeners := by
    intro hmem
    simp only [willUnselect, willSelect, removeInputEvents, addInputEvents] at hmem
    obtain ⟨hbase, hpred⟩ := List.mem_filter.mp hmem
    have hkeep : ¬(i ∈ ins ∧ i.native = true) := by
      intro ⟨h1, h2⟩
      simp [h1, h2] at hpred
    have hnotnative : i.native = false := by
      cases hn : i.native with
      | false => rfl
      | true => exact absurd ⟨hins, hn⟩ hkeep
    rcases (mem_foldl_addListener _ _ _).mp hbase with hold | hnew
    · have := hnat i hold
      rw [hnotnative] at this
      cases this
    · have := (List.mem_filter.mp hnew).2
      rw [hnotnative] at this
      cases this
  have hfnotin : i ∉ (willUnselect ins (willSelect ins s)).focusListeners := by
    intro hmem
    simp only [willUnselect, willSelect, removeInputEvents, addInputEvents] at hmem
    have := (List.mem_filter.mp hmem).2
    simp [hins] at this
  refine ⟨hobs, ?_, ?_, hfnotin⟩
  · simp [didMutatedTriggered, willUnselect, removeInputEvents]
  · simp only [didMutatedTriggered]
    exact decide_eq_false hinotin

/-- Witness for claim C8: one native input; after the select-unselect
pair no observation or listener remains for it. -/
theorem c8_witness :
    (∀ j ∈ ([] : List InputEl), j.native = true) ∧
    ({ id := 0, native := true } : InputEl) ∈ [({ id := 0, native := true } : InputEl)] ∧
    didMutatedTriggered
        (willUnselect [{ id := 0, native := true }]
          (willSelect [{ id := 0, native := true }]
            { observing := false, focusListeners := [], inputListeners := [] }))
        (BlockDomEvent.nativeInput { id := 0, native := true })
      = false :=
  ⟨by simp, by simp,
   (c8_no_observation_after_unselect [{ id := 0, native := true }]
     { observing := false, focusListeners := [], inputListeners := [] }
     { id := 0, native := true }
     (by simp) (by simp)).2.2.1⟩

/-- Claim C10 (confirmed).  `MoveDownTune.handleClick` calls
`api.blocks.move` exactly when a block exists at the next index, and
`MoveUpTune.handleClick` exactly when the current index is non-zero and
both the current and the previous block exist; in every boundary case
the handler returns with the editor state unchanged, having only toggled
the transient animation class on the button. -/
theorem c10_move_tunes_guard (e : EditorBlocksState) :
    ((moveDownHandleClick e).1 = TuneClickResult.movedCall (e.current + 1)
      ↔ (getBlockByIndex e (e.current + 1)).isSome = true) ∧
    (getBlockByIndex e (e.current + 1) = none →
      moveDownHandleClick e = (TuneClickResult.animationOnly, e)) ∧
    ((moveUpHandleClick e).1 = TuneClickResult.movedCall (e.current - 1)
      ↔ (¬e.current = 0 ∧ (getBlockByIndex e e.current).isSome = true ∧
          (getBlockByIndex e (e.current - 1)).isSome = true)) ∧
    ((e.current = 0 ∨ getBlockByIndex e e.current = none ∨
        getBlockByIndex e (e.current - 1) = none) →
      moveUpHandleClick e = (TuneClickResult.animationOnly, e)) := by
  refine ⟨?_, ?_, ?_, ?_⟩
  · cases h : getBlockByIndex e (e.current + 1) with
    | none => simp [moveDownHandleClick, h]
    | some b => simp [moveDownHandleClick, h]
  · intro h
    simp [moveDownHandleClick, h]
  · by_cases hz : e.current = 0
    · simp [moveUpHandleClick, hz]
    · cases hc : getBlockByIndex e e.current with
      | none => simp [moveUpHandleClick, hz, hc]
      | some b =>
          cases hp : getBlockByIndex e (e.current - 1) with
          | none => simp [moveUpHandleClick, hz, hc, hp]
          | some b2 => simp [moveUpHandleClick, hz, hc, hp]
  · intro h
    have : e.current = 0 ∨ getBlockByIndex e e.current = none ∨
        getBlockByIndex e (e.current - 1) = none := h
    simp only [moveUpHandleClick]
    rw [if_pos this]

/-- Witness for claim C10: two blocks with the first current — move down
finds the next block and calls move with index one, move up is at the
boundary and leaves the state unchanged. -/
theorem c10_witness :
    (getBlockByIndex { blocks := ["x", "y"], current := 0 } 1).isSome = true ∧
    (moveDownHandleClick { blocks := ["x", "y"], current := 0 }).1
      = TuneClickResult.movedCall 1 ∧
    moveUpHandleClick { blocks := ["x", "y"], current := 0 }
      = (TuneClickResult.animationOnly, { blocks := ["x", "y"], current := 0 }) := by
  refine ⟨by decide, ?_, ?_⟩
  · have h := (c10_move_tunes_guard { blocks := ["x", "y"], current := 0 }).1.mpr (by decide)
    simpa using h
  · exact (c10_move_tunes_guard { blocks := ["x", "y"], current := 0 }).2.2.2
      (Or.inl rfl)

end EditorCustom
